import Mathlib

/-!
# Verification of the Jenkins node (packages/nodes-base/nodes/Jenkins/Jenkins.node.ts)

Shallow embedding of the Jenkins integration node: the credential test
`buildsGetApiTest`, the per-item `execute` loop with its resource/operation
dispatch, request construction, response normalization and the
continue-on-fail policy.  The host facilities (parameter resolution,
credential store, HTTP transport, XML parser) are external collaborators and
are passed in as explicit functions in `ExecEnv`; every host interaction is
additionally recorded in an event trace so that statements about *which*
calls are made (and how often) can be proved.
-/

/-- JSON-compatible values, extended with `undef` for the JavaScript
`undefined` that an uninitialized `responseData` variable holds. -/
inductive JValue where
  | undef : JValue
  | null : JValue
  | str : String → JValue
  | num : Int → JValue
  | bool : Bool → JValue
  | arr : List JValue → JValue
  | obj : List (String × JValue) → JValue

/-- Query-string values: strings, numbers, or a key present with the
JavaScript `undefined` value (unset filter fields are still listed as keys). -/
inductive QVal where
  | str : String → QVal
  | num : Int → QVal
  | undef : QVal
deriving DecidableEq

/-- The `Array.isArray` test on the embedded values. -/
def isArr : JValue → Bool
  | JValue.arr _ => true
  | _ => false

/-- Credentials of the `JenkinsApi` credential type. -/
structure JenkinsApiCredentials where
  username : String
  apiKey : String
  baseUrl : String

/-- Result shape of a node credential test. -/
structure NodeCredentialTestResult where
  status : String
  message : String

/-- Options handed to the injected HTTP transport, mirroring the
`{method, uri, qs, headers, body}` object built in the source. -/
structure RequestOptions where
  method : String
  uri : String
  qs : List (String × QVal)
  headers : List (String × String)
  body : JValue

/-- Constructor helper for `RequestOptions`. -/
def mkRequest (method uri : String) (qs : List (String × QVal))
    (headers : List (String × String)) (body : JValue) : RequestOptions :=
  ⟨method, uri, qs, headers, body⟩

/-- The HTTP transport: returns the response body or an error message. -/
def Transport : Type := RequestOptions → Except String JValue

/-- One `{name, value}` pair of the `param.params` fixed collection. -/
structure JobParam where
  name : String
  value : String

/-- The `filters` collection of `build:getAll`; unset fields are `none`
(JavaScript `undefined`). -/
structure Filters where
  depth : Option Int
  tree : Option String
  xpath : Option String
  exclude : Option String

/-- Typed parameter values returned by the parameter-resolution host. -/
inductive PValue where
  | str : String → PValue
  | params : List JobParam → PValue
  | filters : Filters → PValue

/-- The `as string` cast applied to a resolved parameter. -/
def PValue.asString : PValue → String
  | PValue.str s => s
  | _ => ""

/-- The `as []` cast applied to the `param.params` parameter. -/
def PValue.asParams : PValue → List JobParam
  | PValue.params ps => ps
  | _ => []

/-- The `as IDataObject` cast applied to the `filters` parameter. -/
def PValue.asFilters : PValue → Filters
  | PValue.filters f => f
  | _ => ⟨none, none, none, none⟩

/-- Host interactions recorded while executing, used to state how often
parameters, credentials, the transport and the XML parser are consulted.
`parse` records the `explicitArray` flag handed to the XML parser. -/
inductive ExecEvent where
  | getParam : String → Nat → ExecEvent
  | getCreds : ExecEvent
  | request : RequestOptions → ExecEvent
  | parse : Bool → ExecEvent

/-- The host environment of one `execute` call: number of input items,
parameter resolution (`getNodeParameter`), credential store
(`getCredentials`), HTTP transport and XML parser (`parseString`, keyed by
its `explicitArray` option). -/
structure ExecEnv where
  length : Nat
  getParam : String → Nat → PValue
  getCreds : JenkinsApiCredentials
  transport : RequestOptions → Except String JValue
  parseXml : Bool → JValue → Except String JValue

/-- Outcome of `execute`: the returned item list, or a thrown error together
with the `returnData` accumulated up to the throw (the items already
appended; the caller only sees the error). -/
inductive ExecResult where
  | ok : List JValue → ExecResult
  | thrown : String → List JValue → ExecResult

/-- Whether a string ends with the `/` character. -/
def strEndsWithSlash (s : String) : Bool :=
  match s.data.getLast? with
  | some c => c = '/'
  | none => false

/-- Modelled from the spec: `tolerateTrailingSlash` lives in
`GenericFunctions.ts`, which is not under `src/`.  Per the spec the request
adapter "normalizes the base-URL trailing slash" so that a base URL written
with a trailing slash produces the same request URI as one written without:
a trailing slash is stripped. -/
def tolerateTrailingSlash (baseUrl : String) : String :=
  if strEndsWithSlash baseUrl then String.mk baseUrl.data.dropLast else baseUrl

/-- Modelled from the spec: `jenkinsApiRequest` lives in
`GenericFunctions.ts`, which is not under `src/`.  Per the spec (sections 2,
4.2 and 6) the request adapter forwards method, URI, query, headers and body
unchanged to the injected HTTP transport, surfaces the transport error
message, and applies no retry or backoff. -/
def jenkinsApiRequest (transport : RequestOptions → Except String JValue)
    (method uri : String) (qs : List (String × QVal))
    (headers : List (String × String)) (body : JValue) : Except String JValue :=
  transport (mkRequest method uri qs headers body)

/-- Base64 alphabet used by `Buffer.toString('base64')`. -/
def base64Alphabet : List Char :=
  "ABCDEFGHIJKLMNOPQRSTUVWXYZabcdefghijklmnopqrstuvwxyz0123456789+/".toList

/-- Character of the base64 alphabet at a given 6-bit index. -/
def b64Char (n : Nat) : Char := base64Alphabet.getD n '='

/-- Standard base64 encoding of a byte list (values in `[0, 256)`),
with `=` padding. -/
def base64Encode : List Nat → List Char
  | [] => []
  | [a] => [b64Char (a / 4), b64Char (a % 4 * 16), '=', '=']
  | [a, b] => [b64Char (a / 4), b64Char (a % 4 * 16 + b / 16), b64Char (b % 16 * 4), '=']
  | a :: b :: c :: rest =>
      b64Char (a / 4) :: b64Char (a % 4 * 16 + b / 16) ::
        b64Char (b % 16 * 4 + c / 64) :: b64Char (c % 64) :: base64Encode rest

/-- Base64 of the UTF-8 bytes of a string, as `Buffer.from(s).toString` with
the `base64` encoding computes it. -/
def base64 (s : String) : String :=
  String.mk (base64Encode ((String.toUTF8 s).toList.map (fun b => b.toNat)))

/-- Request options built by the credential test `buildsGetApiTest`
(Jenkins.node.ts lines 402-417): basic auth over `username:apiKey`,
`GET {tolerateTrailingSlash baseUrl}/api/xml`. -/
def credTestOptions (credential : JenkinsApiCredentials) : RequestOptions :=
  let token := base64 (credential.username ++ ":" ++ credential.apiKey)
  let url := tolerateTrailingSlash credential.baseUrl
  let endpoint := "/api/xml"
  { headers := [("Authorization", "Basic " ++ token)]
    method := "GET"
    body := JValue.obj []
    qs := []
    uri := url ++ endpoint }

/-- The credential test (Jenkins.node.ts lines 398-431): issues the test
request and maps success to `OK`/`Authentication successful`, failure to
`Error` with the transport message. -/
def buildsGetApiTest (transport : RequestOptions → Except String JValue)
    (credential : JenkinsApiCredentials) : NodeCredentialTestResult :=
  match transport (credTestOptions credential) with
  | Except.ok _ => { status := "OK", message := "Authentication successful" }
  | Except.error e => { status := "Error", message := e }

/-- One JavaScript object assignment `body[name] = value`: an existing key
keeps its position and gets the new value, a new key is appended. -/
def setKey : List (String × JValue) → String → JValue → List (String × JValue)
  | [], k, v => [(k, v)]
  | (k', v') :: rest, k, v =>
      if k' = k then (k', v) :: rest else (k', v') :: setKey rest k v

/-- Body of `triggerParams` (Jenkins.node.ts lines 457-463): `{}` when the
list is empty, otherwise the `reduce` that assigns each pair into the
accumulating object. -/
def triggerParamsBody (ps : List JobParam) : List (String × JValue) :=
  if ps.length = 0 then []
  else ps.foldl (fun b p => setKey b p.name (JValue.str p.value)) []

/-- JavaScript truthiness of `depth ? depth : 1` (Jenkins.node.ts line 541):
an unset depth is `undefined` (falsy), and the number `0` is falsy too. -/
def effectiveDepth : Option Int → Int
  | none => 1
  | some d => if d = 0 then 1 else d

/-- An optional string filter field as a query value (`undefined` keys are
still listed in the query object built at lines 540-545). -/
def optQ : Option String → QVal
  | none => QVal.undef
  | some s => QVal.str s

/-- Query object of `build:getAll` (Jenkins.node.ts lines 534-545). -/
def buildGetAllQuery (f : Filters) : List (String × QVal) :=
  [("depth", QVal.num (effectiveDepth f.depth)),
   ("tree", optQ f.tree),
   ("xpath", optQ f.xpath),
   ("exclude", optQ f.exclude)]

/-- One iteration body of the `execute` loop (Jenkins.node.ts lines
444-557), from the credential fetch through the dispatch to the request
(and, for `build:getAll`, the XML parse).  `prev` is the current value of
the `responseData` variable, which is declared outside the loop; a branch
that does not match leaves it unchanged, and a thrown error leaves it
unchanged as well.  The source dispatches through sequential `if`
statements whose guards are mutually exclusive string comparisons on the
same `resource` and `operation` values, so they are written as an
`if`/`else if` chain here.  Returns the recorded host events and either the
new `responseData` or the thrown error message. -/
def processItem (env : ExecEnv) (resource operation : String) (i : Nat)
    (prev : JValue) : List ExecEvent × Except String JValue :=
  let creds := env.getCreds
  let baseUrl := creds.baseUrl
  if resource = "job" then
    if operation = "trigger" then
      let token := (env.getParam "token" i).asString
      let job := (env.getParam "job" i).asString
      let endpoint := baseUrl ++ "/job/" ++ job ++ "/build?token=" ++ token
      ([ExecEvent.getCreds, ExecEvent.getParam "token" i, ExecEvent.getParam "job" i,
        ExecEvent.request (mkRequest "get" endpoint [] [] (JValue.str ""))],
       jenkinsApiRequest env.transport "get" endpoint [] [] (JValue.str ""))
    else if operation = "triggerParams" then
      let token := (env.getParam "token" i).asString
      let job := (env.getParam "job" i).asString
      let ps := (env.getParam "param.params" i).asParams
      let body := triggerParamsBody ps
      let endpoint := baseUrl ++ "/job/" ++ job ++ "/buildWithParameters?token=" ++ token
      ([ExecEvent.getCreds, ExecEvent.getParam "token" i, ExecEvent.getParam "job" i,
        ExecEvent.getParam "param.params" i,
        ExecEvent.request (mkRequest "get" endpoint [] []
          (JValue.obj [("data", JValue.obj body)]))],
       jenkinsApiRequest env.transport "get" endpoint [] []
         (JValue.obj [("data", JValue.obj body)]))
    else if operation = "copy" then
      let job := (env.getParam "job" i).asString
      let name := (env.getParam "newJob" i).asString
      ([ExecEvent.getCreds, ExecEvent.getParam "job" i, ExecEvent.getParam "newJob" i,
        ExecEvent.request (mkRequest "post" (baseUrl ++ "/createItem")
          [("name", QVal.str name), ("mode", QVal.str "copy"), ("from", QVal.str job)]
          [] (JValue.str ""))],
       jenkinsApiRequest env.transport "post" (baseUrl ++ "/createItem")
         [("name", QVal.str name), ("mode", QVal.str "copy"), ("from", QVal.str job)]
         [] (JValue.str ""))
    else if operation = "create" then
      let name := (env.getParam "newJob" i).asString
      let xml := (env.getParam "xml" i).asString
      ([ExecEvent.getCreds, ExecEvent.getParam "newJob" i, ExecEvent.getParam "xml" i,
        ExecEvent.request (mkRequest "post" (baseUrl ++ "/createItem")
          [("name", QVal.str name)] [("content-type", "application/xml")]
          (JValue.str xml))],
       jenkinsApiRequest env.transport "post" (baseUrl ++ "/createItem")
         [("name", QVal.str name)] [("content-type", "application/xml")]
         (JValue.str xml))
    else ([ExecEvent.getCreds], Except.ok prev)
  else if resource = "instance" then
    if operation = "quietDown" then
      let reason := (env.getParam "reason" i).asString
      let qs := if reason = "" then [] else [("reason", QVal.str reason)]
      ([ExecEvent.getCreds, ExecEvent.getParam "reason" i,
        ExecEvent.request (mkRequest "post" (baseUrl ++ "/quietDown") qs [] (JValue.str ""))],
       jenkinsApiRequest env.transport "post" (baseUrl ++ "/quietDown") qs [] (JValue.str ""))
    else if operation = "cancelQuietDown" then
      ([ExecEvent.getCreds,
        ExecEvent.request (mkRequest "post" (baseUrl ++ "/cancelQuietDown") [] [] (JValue.str ""))],
       jenkinsApiRequest env.transport "post" (baseUrl ++ "/cancelQuietDown") [] [] (JValue.str ""))
    else if operation = "restart" then
      ([ExecEvent.getCreds,
        ExecEvent.request (mkRequest "post" (baseUrl ++ "/restart") [] [] (JValue.str ""))],
       jenkinsApiRequest env.transport "post" (baseUrl ++ "/restart") [] [] (JValue.str ""))
    else if operation = "safeRestart" then
      ([ExecEvent.getCreds,
        ExecEvent.request (mkRequest "post" (baseUrl ++ "/safeRestart") [] [] (JValue.str ""))],
       jenkinsApiRequest env.transport "post" (baseUrl ++ "/safeRestart") [] [] (JValue.str ""))
    else if operation = "exit" then
      ([ExecEvent.getCreds,
        ExecEvent.request (mkRequest "post" (baseUrl ++ "/exit") [] [] (JValue.str ""))],
       jenkinsApiRequest env.transport "post" (baseUrl ++ "/exit") [] [] (JValue.str ""))
    else if operation = "safeExit" then
      ([ExecEvent.getCreds,
        ExecEvent.request (mkRequest "post" (baseUrl ++ "/safeExit") [] [] (JValue.str ""))],
       jenkinsApiRequest env.transport "post" (baseUrl ++ "/safeExit") [] [] (JValue.str ""))
    else ([ExecEvent.getCreds], Except.ok prev)
  else if resource = "build" then
    if operation = "build:getAll" then
      let f := (env.getParam "filters" i).asFilters
      let o := mkRequest "get" (baseUrl ++ "/api/xml") (buildGetAllQuery f) [] (JValue.str "")
      match jenkinsApiRequest env.transport "get" (baseUrl ++ "/api/xml")
          (buildGetAllQuery f) [] (JValue.str "") with
      | Except.error e =>
          ([ExecEvent.getCreds, ExecEvent.getParam "filters" i, ExecEvent.request o],
           Except.error e)
      | Except.ok resp =>
          match env.parseXml false resp with
          | Except.error e =>
              ([ExecEvent.getCreds, ExecEvent.getParam "filters" i, ExecEvent.request o,
                ExecEvent.parse false], Except.error e)
          | Except.ok d =>
              ([ExecEvent.getCreds, ExecEvent.getParam "filters" i, ExecEvent.request o,
                ExecEvent.parse false], Except.ok d)
    else ([ExecEvent.getCreds], Except.ok prev)
  else ([ExecEvent.getCreds], Except.ok prev)

/-- Response normalization (Jenkins.node.ts lines 558-562): an array
response is spread into `returnData`, anything else is pushed as one item. -/
def normalizeResponse : JValue → List JValue
  | JValue.arr xs => xs
  | v => [v]

/-- The `execute` loop (Jenkins.node.ts lines 443-570), by remaining
iteration count: on success append the normalized response, on failure
either append `{error: message}` and continue (`continueOnFail`) or abort
with the error, keeping the items already appended. -/
def execLoop (env : ExecEnv) (continueOnFail : Bool) (resource operation : String) :
    Nat → Nat → JValue → List JValue → ExecResult × List ExecEvent
  | _, 0, _, returnData => (ExecResult.ok returnData, [])
  | i, rem + 1, responseData, returnData =>
    match processItem env resource operation i responseData with
    | (evs, Except.ok v) =>
        let next := execLoop env continueOnFail resource operation (i + 1) rem v
          (returnData ++ normalizeResponse v)
        (next.1, evs ++ next.2)
    | (evs, Except.error msg) =>
        if continueOnFail then
          let next := execLoop env continueOnFail resource operation (i + 1) rem responseData
            (returnData ++ [JValue.obj [("error", JValue.str msg)]])
          (next.1, evs ++ next.2)
        else
          (ExecResult.thrown msg returnData, evs)

/-- The whole `execute` method (Jenkins.node.ts lines 435-572): `resource`
and `operation` are resolved once at item index 0 before the loop,
`responseData` starts out `undefined`, `returnData` empty. -/
def execute (env : ExecEnv) (continueOnFail : Bool) : ExecResult × List ExecEvent :=
  let resource := (env.getParam "resource" 0).asString
  let operation := (env.getParam "operation" 0).asString
  let r := execLoop env continueOnFail resource operation 0 env.length JValue.undef []
  (r.1, ExecEvent.getParam "resource" 0 :: ExecEvent.getParam "operation" 0 :: r.2)

/-- Options of the transport requests recorded in a trace, in order. -/
def requestsOf : List ExecEvent → List RequestOptions
  | [] => []
  | ExecEvent.request o :: rest => o :: requestsOf rest
  | _ :: rest => requestsOf rest

/-- Number of credential fetches recorded in a trace. -/
def countCreds : List ExecEvent → Nat
  | [] => 0
  | ExecEvent.getCreds :: rest => countCreds rest + 1
  | _ :: rest => countCreds rest

/-- The parameter-fetch events for a given parameter name, in order. -/
def paramEventsNamed (n : String) : List ExecEvent → List ExecEvent
  | [] => []
  | ExecEvent.getParam m i :: rest =>
      if m = n then ExecEvent.getParam m i :: paramEventsNamed n rest
      else paramEventsNamed n rest
  | _ :: rest => paramEventsNamed n rest

/-- First value bound to a key in an association list (the only value, for
lists built by `setKey` from the empty object). -/
def lookupKey {α : Type} (n : String) : List (String × α) → Option α
  | [] => none
  | (k, v) :: rest => if k = n then some v else lookupKey n rest

lemma normalizeResponse_arr (xs : List JValue) :
    normalizeResponse (JValue.arr xs) = xs := rfl

lemma normalizeResponse_nonarr (v : JValue) (h : isArr v = false) :
    normalizeResponse v = [v] := by
  cases v <;> first | rfl | simp [isArr] at h

lemma execLoop_zero (env : ExecEnv) (cof : Bool) (r o : String) (i : Nat)
    (prev : JValue) (rd : List JValue) :
    execLoop env cof r o i 0 prev rd = (ExecResult.ok rd, []) := rfl

lemma execLoop_succ_ok (env : ExecEnv) (cof : Bool) (r o : String) (i rem : Nat)
    (prev : JValue) (rd : List JValue) (evs : List ExecEvent) (v : JValue)
    (h : processItem env r o i prev = (evs, Except.ok v)) :
    execLoop env cof r o i (rem + 1) prev rd =
      ((execLoop env cof r o (i + 1) rem v (rd ++ normalizeResponse v)).1,
       evs ++ (execLoop env cof r o (i + 1) rem v (rd ++ normalizeResponse v)).2) := by
  simp only [execLoop, h]

lemma execLoop_succ_err_abort (env : ExecEnv) (r o : String) (i rem : Nat)
    (prev : JValue) (rd : List JValue) (evs : List ExecEvent) (msg : String)
    (h : processItem env r o i prev = (evs, Except.error msg)) :
    execLoop env false r o i (rem + 1) prev rd = (ExecResult.thrown msg rd, evs) := by
  simp only [execLoop, h]
  rfl

lemma execLoop_succ_err_cont (env : ExecEnv) (r o : String) (i rem : Nat)
    (prev : JValue) (rd : List JValue) (evs : List ExecEvent) (msg : String)
    (h : processItem env r o i prev = (evs, Except.error msg)) :
    execLoop env true r o i (rem + 1) prev rd =
      ((execLoop env true r o (i + 1) rem prev
         (rd ++ [JValue.obj [("error", JValue.str msg)]])).1,
       evs ++ (execLoop env true r o (i + 1) rem prev
         (rd ++ [JValue.obj [("error", JValue.str msg)]])).2) := by
  simp only [execLoop, h]
  rfl

lemma paramEventsNamed_append (n : String) (a b : List ExecEvent) :
    paramEventsNamed n (a ++ b) = paramEventsNamed n a ++ paramEventsNamed n b := by
  induction a with
  | nil => rfl
  | cons e rest ih =>
      cases e with
      | getParam m i =>
          by_cases h : m = n <;> simp [paramEventsNamed, h, ih]
      | getCreds => simp [paramEventsNamed, ih]
      | request o => simp [paramEventsNamed, ih]
      | parse fl => simp [paramEventsNamed, ih]

lemma countCreds_append (a b : List ExecEvent) :
    countCreds (a ++ b) = countCreds a + countCreds b := by
  induction a with
  | nil => simp [countCreds]
  | cons e rest ih =>
      cases e <;> (simp [countCreds, ih]; try omega)

lemma processItem_trace_shape (env : ExecEnv) (r o : String) (i : Nat) (prev : JValue) :
    countCreds (processItem env r o i prev).1 = 1
    ∧ paramEventsNamed "resource" (processItem env r o i prev).1 = []
    ∧ paramEventsNamed "operation" (processItem env r o i prev).1 = [] := by
  unfold processItem
  repeat' split
  all_goals
    first
      | (simp [countCreds, paramEventsNamed]; done)
      | (cases h1 : jenkinsApiRequest env.transport "get" (env.getCreds.baseUrl ++ "/api/xml")
            (buildGetAllQuery (env.getParam "filters" i).asFilters) [] (JValue.str "") with
          | error e => simp [h1, countCreds, paramEventsNamed]
          | ok resp =>
              cases h2 : env.parseXml false resp with
              | error e => simp [h1, h2, countCreds, paramEventsNamed]
              | ok d => simp [h1, h2, countCreds, paramEventsNamed])

lemma execLoop_paramEventsNamed (env : ExecEnv) (cof : Bool) (r o n : String)
    (hn : n = "resource" ∨ n = "operation") :
    ∀ rem i prev rd, paramEventsNamed n (execLoop env cof r o i rem prev rd).2 = [] := by
  intro rem
  induction rem with
  | zero => intro i prev rd; rfl
  | succ rem ih =>
      intro i prev rd
      rcases hpi : processItem env r o i prev with ⟨evs, res⟩
      have hevs : paramEventsNamed n evs = [] := by
        have h := processItem_trace_shape env r o i prev
        rcases hn with hn | hn <;> rw [hn] <;> simp [hpi] at h ⊢ <;> tauto
      cases res with
      | ok v =>
          rw [execLoop_succ_ok env cof r o i rem prev rd evs v hpi]
          simp [paramEventsNamed_append, hevs, ih]
      | error msg =>
          cases cof with
          | false =>
              rw [execLoop_succ_err_abort env r o i rem prev rd evs msg hpi]
              exact hevs
          | true =>
              rw [execLoop_succ_err_cont env r o i rem prev rd evs msg hpi]
              simp [paramEventsNamed_append, hevs, ih]

lemma execLoop_countCreds (env : ExecEnv) (r o : String) :
    ∀ rem i prev rd, countCreds (execLoop env true r o i rem prev rd).2 = rem := by
  intro rem
  induction rem with
  | zero => intro i prev rd; rfl
  | succ rem ih =>
      intro i prev rd
      rcases hpi : processItem env r o i prev with ⟨evs, res⟩
      have hevs : countCreds evs = 1 := by
        have h := (processItem_trace_shape env r o i prev).1
        rw [hpi] at h
        exact h
      cases res with
      | ok v =>
          rw [execLoop_succ_ok env true r o i rem prev rd evs v hpi]
          simp [countCreds_append, hevs, ih]
          omega
      | error msg =>
          rw [execLoop_succ_err_cont env r o i rem prev rd evs msg hpi]
          simp [countCreds_append, hevs, ih]
          omega

/-- The dispatch guards of the `execute` loop (Jenkins.node.ts lines
446-557): the `(resource, operation)` pairs for which some branch fires. -/
def dispatchMatch (resource operation : String) : Prop :=
  (resource = "job" ∧ (operation = "trigger" ∨ operation = "triggerParams"
      ∨ operation = "copy" ∨ operation = "create"))
  ∨ (resource = "instance" ∧ (operation = "quietDown" ∨ operation = "cancelQuietDown"
      ∨ operation = "restart" ∨ operation = "safeRestart" ∨ operation = "exit"
      ∨ operation = "safeExit"))
  ∨ (resource = "build" ∧ operation = "build:getAll")

instance (r o : String) : Decidable (dispatchMatch r o) := by
  unfold dispatchMatch
  infer_instance

lemma processItem_noMatch (env : ExecEnv) (r o : String) (i : Nat) (prev : JValue)
    (h : ¬ dispatchMatch r o) :
    processItem env r o i prev = ([ExecEvent.getCreds], Except.ok prev) := by
  unfold processItem
  repeat' split
  all_goals
    first
      | rfl
      | (exfalso; apply h; unfold dispatchMatch; tauto)

lemma execLoop_noMatch (env : ExecEnv) (cof : Bool) (r o : String)
    (h : ¬ dispatchMatch r o) :
    ∀ rem i prev rd, isArr prev = false →
      execLoop env cof r o i rem prev rd =
        (ExecResult.ok (rd ++ List.replicate rem prev),
         List.replicate rem ExecEvent.getCreds) := by
  intro rem
  induction rem with
  | zero => intro i prev rd hprev; simp [execLoop_zero]
  | succ rem ih =>
      intro i prev rd hprev
      rw [execLoop_succ_ok env cof r o i rem prev rd [ExecEvent.getCreds] prev
        (processItem_noMatch env r o i prev h)]
      rw [ih (i + 1) prev (rd ++ normalizeResponse prev) hprev]
      simp [normalizeResponse_nonarr prev hprev, List.replicate_succ]

/-- Follows the spec's words for `triggerParams` duplicate handling ("the
later pair's value wins"): the value bound to a name is the value of the
last pair in the parameter list carrying that name, if any.  This is the
spec-side characterization that `triggerParamsBody` is compared with. -/
def specLastWins (n : String) : List JobParam → Option JValue
  | [] => none
  | p :: ps =>
      match specLastWins n ps with
      | some v => some v
      | none => if p.name = n then some (JValue.str p.value) else none

lemma lookupKey_setKey (n k : String) (v : JValue) (b : List (String × JValue)) :
    lookupKey n (setKey b k v) = if k = n then some v else lookupKey n b := by
  induction b with
  | nil => simp [setKey, lookupKey]
  | cons hd rest ih =>
      rcases hd with ⟨k', v'⟩
      by_cases hk : k' = k
      · subst hk
        by_cases hn : k' = n <;> simp [setKey, lookupKey, hn]
      · by_cases hn : k' = n
        · subst hn
          have : ¬ k = k' := fun hc => hk hc.symm
          simp [setKey, lookupKey, hk, this]
        · simp [setKey, lookupKey, hk, hn, ih]

lemma setKey_notMem (k : String) (v : JValue) (b : List (String × JValue))
    (h : k ∉ b.map Prod.fst) :
    setKey b k v = b ++ [(k, v)] := by
  induction b with
  | nil => rfl
  | cons hd rest ih =>
      rcases hd with ⟨k', v'⟩
      simp only [List.map_cons, List.mem_cons] at h
      push_neg at h
      have hk : ¬ k' = k := fun hc => h.1 hc.symm
      simp [setKey, hk, ih h.2]

lemma foldl_setKey_nodup (ps : List JobParam) :
    ∀ acc : List (String × JValue),
      (ps.map JobParam.name).Nodup →
      (∀ p ∈ ps, p.name ∉ acc.map Prod.fst) →
      ps.foldl (fun b p => setKey b p.name (JValue.str p.value)) acc =
        acc ++ ps.map (fun p => (p.name, JValue.str p.value)) := by
  induction ps with
  | nil => intro acc _ _; simp
  | cons p ps ih =>
      intro acc hnd hacc
      simp only [List.foldl_cons]
      rw [setKey_notMem p.name (JValue.str p.value) acc (hacc p (by simp))]
      simp only [List.map_cons, List.nodup_cons] at hnd
      rw [ih (acc ++ [(p.name, JValue.str p.value)]) hnd.2 ?_]
      · simp
      · intro q hq
        simp only [List.map_append, List.mem_append]
        push_neg
        refine ⟨hacc q (by simp [hq]), ?_⟩
        intro hc
        have hqp : q.name = p.name := by simpa using hc
        apply hnd.1
        have hmem := List.mem_map_of_mem JobParam.name hq
        rwa [hqp] at hmem

lemma lookupKey_foldl_setKey (n : String) (ps : List JobParam) :
    ∀ acc : List (String × JValue),
      lookupKey n (ps.foldl (fun b p => setKey b p.name (JValue.str p.value)) acc) =
        match specLastWins n ps with
        | some v => some v
        | none => lookupKey n acc := by
  induction ps with
  | nil => intro acc; simp [specLastWins]
  | cons p ps ih =>
      intro acc
      simp only [List.foldl_cons]
      rw [ih (setKey acc p.name (JValue.str p.value))]
      rw [lookupKey_setKey n p.name (JValue.str p.value) acc]
      cases hs : specLastWins n ps with
      | some v => simp [specLastWins, hs]
      | none =>
          by_cases hn : p.name = n <;> simp [specLastWins, hs, hn]

/-- C10: for every credential `{username, apiKey, baseUrl}`, the credential
test issues `GET {tolerateTrailingSlash baseUrl}/api/xml` with header
`Authorization: Basic base64(username:apiKey)`; it returns status `OK` with
message `Authentication successful` exactly when the transport request
succeeds, and status `Error` carrying the transport-provided error message
(without throwing) exactly when it fails. -/
theorem jenkins_C10_credential_test (transport : RequestOptions → Except String JValue)
    (c : JenkinsApiCredentials) :
    (credTestOptions c).method = "GET"
    ∧ (credTestOptions c).uri = tolerateTrailingSlash c.baseUrl ++ "/api/xml"
    ∧ (credTestOptions c).headers =
        [("Authorization", "Basic " ++ base64 (c.username ++ ":" ++ c.apiKey))]
    ∧ (∀ r, transport (credTestOptions c) = Except.ok r →
        buildsGetApiTest transport c = ⟨"OK", "Authentication successful"⟩)
    ∧ (∀ e, transport (credTestOptions c) = Except.error e →
        buildsGetApiTest transport c = ⟨"Error", e⟩) := by
  refine ⟨rfl, rfl, rfl, ?_, ?_⟩
  · intro r h
    simp [buildsGetApiTest, h]
  · intro e h
    simp [buildsGetApiTest, h]

/-- C10 witness: the credential test evaluated at concrete credentials and
concrete succeeding/failing transports. -/
theorem jenkins_C10_credential_test_witness :
    (credTestOptions ⟨"n", "k", "http://h/"⟩).uri = "http://h/api/xml"
    ∧ buildsGetApiTest (fun _ => Except.ok (JValue.obj [])) ⟨"n", "k", "http://h/"⟩ =
        ⟨"OK", "Authentication successful"⟩
    ∧ buildsGetApiTest (fun _ => Except.error "bad auth") ⟨"n", "k", "http://h/"⟩ =
        ⟨"Error", "bad auth"⟩ :=
  ⟨by decide,
   (jenkins_C10_credential_test (fun _ => Except.ok (JValue.obj []))
     ⟨"n", "k", "http://h/"⟩).2.2.2.1 (JValue.obj []) rfl,
   (jenkins_C10_credential_test (fun _ => Except.error "bad auth")
     ⟨"n", "k", "http://h/"⟩).2.2.2.2 "bad auth" rfl⟩

/-- C5: when an item's processing succeeds with response `v`, the loop
appends exactly `normalizeResponse v` to the output collection before
continuing; an array response of length N contributes its N elements in
original order, and a non-array response contributes exactly one item. -/
theorem jenkins_C5_normalizer (env : ExecEnv) (cof : Bool) (r o : String)
    (i rem : Nat) (prev : JValue) (rd : List JValue) (evs : List ExecEvent)
    (v : JValue)
    (h : processItem env r o i prev = (evs, Except.ok v)) :
    execLoop env cof r o i (rem + 1) prev rd =
      ((execLoop env cof r o (i + 1) rem v (rd ++ normalizeResponse v)).1,
       evs ++ (execLoop env cof r o (i + 1) rem v (rd ++ normalizeResponse v)).2)
    ∧ (∀ xs, normalizeResponse (JValue.arr xs) = xs)
    ∧ (isArr v = false → normalizeResponse v = [v]) :=
  ⟨execLoop_succ_ok env cof r o i rem prev rd evs v h,
   normalizeResponse_arr,
   normalizeResponse_nonarr v⟩

/-- Environment used to witness C5: one trigger item whose transport
response is a two-element array. -/
def envC5 : ExecEnv :=
  { length := 1
    getParam := fun _ _ => PValue.str "x"
    getCreds := ⟨"n", "k", "u"⟩
    transport := fun _ => Except.ok (JValue.arr [JValue.num 1, JValue.num 2])
    parseXml := fun _ v => Except.ok v }

/-- C5 witness: at a concrete environment the array response is flattened
into two output items. -/
theorem jenkins_C5_normalizer_witness :
    processItem envC5 "job" "trigger" 0 JValue.undef =
      ([ExecEvent.getCreds, ExecEvent.getParam "token" 0, ExecEvent.getParam "job" 0,
        ExecEvent.request (mkRequest "get" "u/job/x/build?token=x" [] [] (JValue.str ""))],
       Except.ok (JValue.arr [JValue.num 1, JValue.num 2]))
    ∧ (execLoop envC5 false "job" "trigger" 0 1 JValue.undef []).1 =
        (execLoop envC5 false "job" "trigger" 1 0 (JValue.arr [JValue.num 1, JValue.num 2])
          ([] ++ normalizeResponse (JValue.arr [JValue.num 1, JValue.num 2]))).1 :=
  ⟨rfl,
   (jenkins_C5_normalizer envC5 false "job" "trigger" 0 0 JValue.undef []
     [ExecEvent.getCreds, ExecEvent.getParam "token" 0, ExecEvent.getParam "job" 0,
      ExecEvent.request (mkRequest "get" "u/job/x/build?token=x" [] [] (JValue.str ""))]
     (JValue.arr [JValue.num 1, JValue.num 2]) rfl).1.symm ▸ rfl⟩

/-- C6: a `build:getAll` item whose `filters` collection leaves `depth`
unset issues exactly one request, `GET {baseUrl}/api/xml`, whose query
parameters carry `depth = 1`. -/
theorem jenkins_C6_depth_default (env : ExecEnv) (i : Nat) (prev : JValue)
    (f : Filters)
    (hf : env.getParam "filters" i = PValue.filters f)
    (hd : f.depth = none) :
    requestsOf (processItem env "build" "build:getAll" i prev).1 =
      [mkRequest "get" (env.getCreds.baseUrl ++ "/api/xml") (buildGetAllQuery f) []
        (JValue.str "")]
    ∧ lookupKey "depth" (buildGetAllQuery f) = some (QVal.num 1) := by
  constructor
  · simp only [processItem, jenkinsApiRequest, hf, PValue.asFilters]
    norm_num
    cases h1 : env.transport (mkRequest "get" (env.getCreds.baseUrl ++ "/api/xml")
        (buildGetAllQuery f) [] (JValue.str "")) with
    | error e => simp [h1, requestsOf]
    | ok resp =>
        cases h2 : env.parseXml false resp with
        | error e => simp [h1, h2, requestsOf]
        | ok d => simp [h1, h2, requestsOf]
  · simp [buildGetAllQuery, effectiveDepth, hd, lookupKey]

/-- Environment used to witness C6: one `build:getAll` item with an empty
filters collection. -/
def envC6 : ExecEnv :=
  { length := 1
    getParam := fun _ _ => PValue.filters ⟨none, none, none, none⟩
    getCreds := ⟨"n", "k", "u"⟩
    transport := fun _ => Except.ok (JValue.str "<x/>")
    parseXml := fun _ _ => Except.ok (JValue.obj [("x", JValue.obj [])]) }

/-- C6 witness: the concrete `build:getAll` request carries `depth = 1`. -/
theorem jenkins_C6_depth_default_witness :
    envC6.getParam "filters" 0 = PValue.filters ⟨none, none, none, none⟩
    ∧ (requestsOf (processItem envC6 "build" "build:getAll" 0 JValue.undef).1 =
        [mkRequest "get" (envC6.getCreds.baseUrl ++ "/api/xml")
          (buildGetAllQuery ⟨none, none, none, none⟩) [] (JValue.str "")]
      ∧ lookupKey "depth" (buildGetAllQuery ⟨none, none, none, none⟩) =
          some (QVal.num 1)) :=
  ⟨rfl, jenkins_C6_depth_default envC6 0 JValue.undef ⟨none, none, none, none⟩ rfl rfl⟩

/-- C8: a `build:getAll` item converts the transport response through a
single `parseString` call with `explicitArray := false` — the trace records
exactly one `parse false` event per successful request, and none when the
request itself failed; on parse success the parsed object becomes the
item's response, and on parse error that error fails the whole item. -/
theorem jenkins_C8_xml_parse (env : ExecEnv) (i : Nat) (prev : JValue)
    (f : Filters)
    (hf : env.getParam "filters" i = PValue.filters f) :
    (∀ resp d,
      env.transport (mkRequest "get" (env.getCreds.baseUrl ++ "/api/xml")
          (buildGetAllQuery f) [] (JValue.str "")) = Except.ok resp →
      env.parseXml false resp = Except.ok d →
      processItem env "build" "build:getAll" i prev =
        ([ExecEvent.getCreds, ExecEvent.getParam "filters" i,
          ExecEvent.request (mkRequest "get" (env.getCreds.baseUrl ++ "/api/xml")
            (buildGetAllQuery f) [] (JValue.str "")),
          ExecEvent.parse false], Except.ok d))
    ∧ (∀ resp e,
      env.transport (mkRequest "get" (env.getCreds.baseUrl ++ "/api/xml")
          (buildGetAllQuery f) [] (JValue.str "")) = Except.ok resp →
      env.parseXml false resp = Except.error e →
      processItem env "build" "build:getAll" i prev =
        ([ExecEvent.getCreds, ExecEvent.getParam "filters" i,
          ExecEvent.request (mkRequest "get" (env.getCreds.baseUrl ++ "/api/xml")
            (buildGetAllQuery f) [] (JValue.str "")),
          ExecEvent.parse false], Except.error e))
    ∧ (∀ e,
      env.transport (mkRequest "get" (env.getCreds.baseUrl ++ "/api/xml")
          (buildGetAllQuery f) [] (JValue.str "")) = Except.error e →
      processItem env "build" "build:getAll" i prev =
        ([ExecEvent.getCreds, ExecEvent.getParam "filters" i,
          ExecEvent.request (mkRequest "get" (env.getCreds.baseUrl ++ "/api/xml")
            (buildGetAllQuery f) [] (JValue.str ""))], Except.error e)) := by
  refine ⟨?_, ?_, ?_⟩
  · intro resp d h1 h2
    simp only [processItem, jenkinsApiRequest, hf, PValue.asFilters]
    norm_num
    simp [h1, h2]
  · intro resp e h1 h2
    simp only [processItem, jenkinsApiRequest, hf, PValue.asFilters]
    norm_num
    simp [h1, h2]
  · intro e h1
    simp only [processItem, jenkinsApiRequest, hf, PValue.asFilters]
    norm_num
    simp [h1]

/-- Environment used to witness C8: a `build:getAll` item whose transport
returns XML text and whose parser fails with a parse error. -/
def envC8 : ExecEnv :=
  { length := 1
    getParam := fun _ _ => PValue.filters ⟨some 2, none, none, none⟩
    getCreds := ⟨"n", "k", "u"⟩
    transport := fun _ => Except.ok (JValue.str "<broken")
    parseXml := fun _ _ => Except.error "unclosed tag" }

/-- C8 witness: at a concrete environment the malformed XML fails the item
with the parse error after exactly one parse event. -/
theorem jenkins_C8_xml_parse_witness :
    envC8.getParam "filters" 0 = PValue.filters ⟨some 2, none, none, none⟩
    ∧ processItem envC8 "build" "build:getAll" 0 JValue.undef =
        ([ExecEvent.getCreds, ExecEvent.getParam "filters" 0,
          ExecEvent.request (mkRequest "get" (envC8.getCreds.baseUrl ++ "/api/xml")
            (buildGetAllQuery ⟨some 2, none, none, none⟩) [] (JValue.str "")),
          ExecEvent.parse false], Except.error "unclosed tag") :=
  ⟨rfl,
   (jenkins_C8_xml_parse envC8 0 JValue.undef ⟨some 2, none, none, none⟩ rfl).2.1
     (JValue.str "<broken") "unclosed tag" rfl rfl⟩

/-- C9: every instance-resource operation issues exactly one request,
`POST {baseUrl}/{operation}`, and a `reason` query parameter is attached
only for `quietDown` and only when the resolved reason is non-empty; in
every other case the POST carries no query parameters. -/
theorem jenkins_C9_instance_ops (env : ExecEnv) (operation : String) (i : Nat)
    (prev : JValue)
    (hop : operation ∈ ["quietDown", "cancelQuietDown", "restart", "safeRestart",
      "exit", "safeExit"]) :
    requestsOf (processItem env "instance" operation i prev).1 =
      [mkRequest "post" (env.getCreds.baseUrl ++ ("/" ++ operation))
        (if operation = "quietDown" ∧ (env.getParam "reason" i).asString ≠ ""
         then [("reason", QVal.str ((env.getParam "reason" i).asString))]
         else [])
        [] (JValue.str "")] := by
  simp only [List.mem_cons, List.not_mem_nil, or_false] at hop
  rcases hop with h | h | h | h | h | h <;> subst h
  · by_cases hr : (env.getParam "reason" i).asString = "" <;>
      simp [processItem, requestsOf, hr]
  all_goals simp [processItem, requestsOf]

/-- Environment used to witness C9: constant parameters, quietDown reason
resolved to the empty string. -/
def envC9 : ExecEnv :=
  { length := 1
    getParam := fun _ _ => PValue.str ""
    getCreds := ⟨"n", "k", "u"⟩
    transport := fun _ => Except.ok JValue.null
    parseXml := fun _ v => Except.ok v }

/-- C9 witness: concrete `quietDown` with an empty reason issues a POST with
no query parameters. -/
theorem jenkins_C9_instance_ops_witness :
    requestsOf (processItem envC9 "instance" "quietDown" 0 JValue.undef).1 =
      [mkRequest "post" (envC9.getCreds.baseUrl ++ ("/" ++ "quietDown"))
        (if ("quietDown" : String) = "quietDown" ∧ (envC9.getParam "reason" 0).asString ≠ ""
         then [("reason", QVal.str ((envC9.getParam "reason" 0).asString))]
         else [])
        [] (JValue.str "")] :=
  jenkins_C9_instance_ops envC9 "quietDown" 0 JValue.undef (by simp)

/-- C2: a `triggerParams` item issues exactly one request,
`GET {baseUrl}/job/{job}/buildWithParameters?token={token}`, whose body is
`{data: m}` with `m` the parameter list folded left-to-right into a mapping
(`triggerParamsBody`); with pairwise-distinct names the mapping holds
exactly the listed pairs in order, and on duplicate names the later pair's
value silently wins (`specLastWins`). -/
theorem jenkins_C2_trigger_params (env : ExecEnv) (i : Nat) (prev : JValue)
    (ps : List JobParam)
    (hp : env.getParam "param.params" i = PValue.params ps) :
    requestsOf (processItem env "job" "triggerParams" i prev).1 =
      [mkRequest "get"
        (env.getCreds.baseUrl ++ "/job/" ++ (env.getParam "job" i).asString
          ++ "/buildWithParameters?token=" ++ (env.getParam "token" i).asString)
        [] []
        (JValue.obj [("data", JValue.obj (triggerParamsBody ps))])]
    ∧ ((ps.map JobParam.name).Nodup →
        triggerParamsBody ps = ps.map (fun p => (p.name, JValue.str p.value)))
    ∧ (∀ n, lookupKey n (triggerParamsBody ps) = specLastWins n ps) := by
  refine ⟨?_, ?_, ?_⟩
  · simp [processItem, requestsOf, hp, PValue.asParams]
  · intro hnd
    cases ps with
    | nil => rfl
    | cons p rest =>
        unfold triggerParamsBody
        rw [if_neg (by simp)]
        exact foldl_setKey_nodup (p :: rest) [] hnd (by simp)
  · intro n
    cases ps with
    | nil => rfl
    | cons p rest =>
        unfold triggerParamsBody
        rw [if_neg (by simp)]
        rw [lookupKey_foldl_setKey n (p :: rest) []]
        cases specLastWins n (p :: rest) <;> rfl

/-- Environment used to witness C2: a duplicate-name parameter list. -/
def envC2 : ExecEnv :=
  { length := 1
    getParam := fun name _ =>
      if name = "param.params" then
        PValue.params [⟨"a", "1"⟩, ⟨"b", "2"⟩, ⟨"a", "3"⟩]
      else PValue.str "x"
    getCreds := ⟨"n", "k", "u"⟩
    transport := fun _ => Except.ok JValue.null
    parseXml := fun _ v => Except.ok v }

/-- C2 witness: concrete duplicate-name list, applying the theorem at the
name `a` where the later value `3` wins. -/
theorem jenkins_C2_trigger_params_witness :
    envC2.getParam "param.params" 0 =
      PValue.params [⟨"a", "1"⟩, ⟨"b", "2"⟩, ⟨"a", "3"⟩]
    ∧ lookupKey "a" (triggerParamsBody [⟨"a", "1"⟩, ⟨"b", "2"⟩, ⟨"a", "3"⟩]) =
        specLastWins "a" [⟨"a", "1"⟩, ⟨"b", "2"⟩, ⟨"a", "3"⟩] :=
  ⟨rfl,
   (jenkins_C2_trigger_params envC2 0 JValue.undef
     [⟨"a", "1"⟩, ⟨"b", "2"⟩, ⟨"a", "3"⟩] rfl).2.2 "a"⟩

/-- C7: when the resolved `(resource, operation)` pair matches no dispatch
branch, an iteration only fetches credentials and leaves `responseData`
unchanged (it is declared outside the loop and never reset), so the loop
still appends one value per input item — the stale `responseData`; since
`resource` and `operation` are fixed for the whole run, no item of such a
run ever matches, and the whole output is `undefined` repeated once per
item (the first item's appended value in particular is `undefined`). -/
theorem jenkins_C7_no_match_stale (env : ExecEnv) (cof : Bool) (r o : String)
    (i rem : Nat) (prev : JValue) (rd : List JValue)
    (hnm : ¬ dispatchMatch r o) :
    processItem env r o i prev = ([ExecEvent.getCreds], Except.ok prev)
    ∧ (isArr prev = false →
        execLoop env cof r o i rem prev rd =
          (ExecResult.ok (rd ++ List.replicate rem prev),
           List.replicate rem ExecEvent.getCreds))
    ∧ ((env.getParam "resource" 0).asString = r →
        (env.getParam "operation" 0).asString = o →
        execute env cof =
          (ExecResult.ok (List.replicate env.length JValue.undef),
           ExecEvent.getParam "resource" 0 :: ExecEvent.getParam "operation" 0 ::
             List.replicate env.length ExecEvent.getCreds)) := by
  refine ⟨processItem_noMatch env r o i prev hnm, ?_, ?_⟩
  · intro hprev
    exact execLoop_noMatch env cof r o hnm rem i prev rd hprev
  · intro hr ho
    unfold execute
    rw [hr, ho]
    simp [execLoop_noMatch env cof r o hnm env.length 0 JValue.undef [] rfl]

/-- Environment used to witness C7: two items, a `(resource, operation)`
pair that matches no branch. -/
def envC7 : ExecEnv :=
  { length := 2
    getParam := fun _ _ => PValue.str "nothing"
    getCreds := ⟨"n", "k", "u"⟩
    transport := fun _ => Except.ok JValue.null
    parseXml := fun _ v => Except.ok v }

/-- C7 witness: the concrete no-match run returns `undefined` once per item
and only fetches credentials. -/
theorem jenkins_C7_no_match_stale_witness :
    processItem envC7 "nothing" "nothing" 0 JValue.undef =
      ([ExecEvent.getCreds], Except.ok JValue.undef)
    ∧ execute envC7 false =
        (ExecResult.ok (List.replicate 2 JValue.undef),
         ExecEvent.getParam "resource" 0 :: ExecEvent.getParam "operation" 0 ::
           List.replicate 2 ExecEvent.getCreds) :=
  ⟨(jenkins_C7_no_match_stale envC7 false "nothing" "nothing" 0 0 JValue.undef []
      (by decide)).1,
   (jenkins_C7_no_match_stale envC7 false "nothing" "nothing" 0 0 JValue.undef []
      (by decide)).2.2 rfl rfl⟩

/-- C1: over 3 input items where item 2 (index 1) raises a transport error
and items 1 and 3 succeed with non-array responses: with `continueOnFail`
off, the run aborts on the error with exactly 1 item accumulated (the one
produced from item 1, which is not rolled back) and item 3 is never
processed (its events do not appear in the trace); with `continueOnFail`
on, the output has exactly 3 items, the second being
`{error: <message>}`. -/
theorem jenkins_C1_failure_tolerance (env : ExecEnv) (r o msg : String)
    (v0 v2 : JValue) (t0 t1 t2 : List ExecEvent)
    (hr : env.getParam "resource" 0 = PValue.str r)
    (ho : env.getParam "operation" 0 = PValue.str o)
    (hlen : env.length = 3)
    (h0 : processItem env r o 0 JValue.undef = (t0, Except.ok v0))
    (h0a : isArr v0 = false)
    (h1 : processItem env r o 1 v0 = (t1, Except.error msg))
    (h2 : processItem env r o 2 v0 = (t2, Except.ok v2))
    (h2a : isArr v2 = false) :
    execute env false =
      (ExecResult.thrown msg [v0],
       ExecEvent.getParam "resource" 0 :: ExecEvent.getParam "operation" 0 :: (t0 ++ t1))
    ∧ execute env true =
      (ExecResult.ok [v0, JValue.obj [("error", JValue.str msg)], v2],
       ExecEvent.getParam "resource" 0 :: ExecEvent.getParam "operation" 0 ::
         (t0 ++ (t1 ++ t2))) := by
  have hn0 := normalizeResponse_nonarr v0 h0a
  have hn2 := normalizeResponse_nonarr v2 h2a
  constructor
  · unfold execute
    rw [hr, ho]
    simp only [PValue.asString, hlen]
    rw [show (3 : Nat) = 2 + 1 from rfl]
    rw [execLoop_succ_ok env false r o 0 2 JValue.undef [] t0 v0 h0]
    rw [show (2 : Nat) = 1 + 1 from rfl]
    rw [execLoop_succ_err_abort env r o 1 1 v0 ([] ++ normalizeResponse v0) t1 msg h1]
    simp [hn0]
  · unfold execute
    rw [hr, ho]
    simp only [PValue.asString, hlen]
    rw [show (3 : Nat) = 2 + 1 from rfl]
    rw [execLoop_succ_ok env true r o 0 2 JValue.undef [] t0 v0 h0]
    rw [show (2 : Nat) = 1 + 1 from rfl]
    rw [execLoop_succ_err_cont env r o 1 1 v0 ([] ++ normalizeResponse v0) t1 msg h1]
    rw [show (1 : Nat) = 0 + 1 from rfl]
    rw [execLoop_succ_ok env true r o 2 0 v0
      (([] ++ normalizeResponse v0) ++ [JValue.obj [("error", JValue.str msg)]]) t2 v2 h2]
    simp [hn0, hn2, execLoop_zero]

/-- Parameter resolution for the C1 witness environment: `trigger` items
whose job name is `b` for item index 1 and `a` otherwise. -/
def paramsC1 : String → Nat → PValue := fun name i =>
  if name = "resource" then PValue.str "job"
  else if name = "operation" then PValue.str "trigger"
  else if name = "token" then PValue.str "t"
  else if name = "job" then (if i = 1 then PValue.str "b" else PValue.str "a")
  else PValue.str ""

/-- Environment used to witness C1: 3 trigger items; the transport fails
exactly on job `b` (item index 1). -/
def envC1 : ExecEnv :=
  { length := 3
    getParam := paramsC1
    getCreds := ⟨"n", "k", "u"⟩
    transport := fun o =>
      if o.uri = "u/job/b/build?token=t" then Except.error "boom"
      else Except.ok (JValue.str "ok")
    parseXml := fun _ v => Except.ok v }

/-- C1 witness: the concrete 3-item run, aborting with one accumulated item
when tolerance is off and producing 3 items (the second an error object)
when tolerance is on. -/
theorem jenkins_C1_failure_tolerance_witness :
    execute envC1 false =
      (ExecResult.thrown "boom" [JValue.str "ok"],
       ExecEvent.getParam "resource" 0 :: ExecEvent.getParam "operation" 0 ::
         ([ExecEvent.getCreds, ExecEvent.getParam "token" 0, ExecEvent.getParam "job" 0,
           ExecEvent.request (mkRequest "get" "u/job/a/build?token=t" [] [] (JValue.str ""))]
          ++ [ExecEvent.getCreds, ExecEvent.getParam "token" 1, ExecEvent.getParam "job" 1,
           ExecEvent.request (mkRequest "get" "u/job/b/build?token=t" [] [] (JValue.str ""))]))
    ∧ execute envC1 true =
      (ExecResult.ok [JValue.str "ok", JValue.obj [("error", JValue.str "boom")],
         JValue.str "ok"],
       ExecEvent.getParam "resource" 0 :: ExecEvent.getParam "operation" 0 ::
         ([ExecEvent.getCreds, ExecEvent.getParam "token" 0, ExecEvent.getParam "job" 0,
           ExecEvent.request (mkRequest "get" "u/job/a/build?token=t" [] [] (JValue.str ""))]
          ++ ([ExecEvent.getCreds, ExecEvent.getParam "token" 1, ExecEvent.getParam "job" 1,
           ExecEvent.request (mkRequest "get" "u/job/b/build?token=t" [] [] (JValue.str ""))]
          ++ [ExecEvent.getCreds, ExecEvent.getParam "token" 2, ExecEvent.getParam "job" 2,
           ExecEvent.request (mkRequest "get" "u/job/a/build?token=t" [] [] (JValue.str ""))]))) :=
  jenkins_C1_failure_tolerance envC1 "job" "trigger" "boom"
    (JValue.str "ok") (JValue.str "ok")
    [ExecEvent.getCreds, ExecEvent.getParam "token" 0, ExecEvent.getParam "job" 0,
     ExecEvent.request (mkRequest "get" "u/job/a/build?token=t" [] [] (JValue.str ""))]
    [ExecEvent.getCreds, ExecEvent.getParam "token" 1, ExecEvent.getParam "job" 1,
     ExecEvent.request (mkRequest "get" "u/job/b/build?token=t" [] [] (JValue.str ""))]
    [ExecEvent.getCreds, ExecEvent.getParam "token" 2, ExecEvent.getParam "job" 2,
     ExecEvent.request (mkRequest "get" "u/job/a/build?token=t" [] [] (JValue.str ""))]
    rfl rfl rfl rfl rfl rfl rfl rfl

/-- Environment used for the C3 counterexample: two input items whose
`(resource, operation)` pair matches no branch, so every iteration does
nothing but fetch credentials. -/
def envC3 : ExecEnv :=
  { length := 2
    getParam := fun _ _ => PValue.str "x"
    getCreds := ⟨"n", "k", "u"⟩
    transport := fun _ => Except.ok JValue.null
    parseXml := fun _ v => Except.ok v }

/-- C3 counterexample: in a 2-item run the trace records two credential
fetches, not one — `getCredentials` is called inside the loop, once per
item, so credentials are not fetched exactly once per execution. -/
theorem jenkins_C3_per_run_counterexample :
    countCreds (execute envC3 false).2 = 2
    ∧ countCreds (execute envC3 false).2 ≠ 1 := by
  constructor
  · rfl
  · decide

/-- C3 amended: `resource` and `operation` are each fetched exactly once,
at item index 0 before the loop, and reused for every item (the trace
contains no other fetch of either name); credentials however are re-fetched
on every iteration — a completed run over `n` items performs exactly `n`
credential fetches, not one. -/
theorem jenkins_C3_amended_resolution (env : ExecEnv) :
    paramEventsNamed "resource" (execute env true).2 =
      [ExecEvent.getParam "resource" 0]
    ∧ paramEventsNamed "operation" (execute env true).2 =
      [ExecEvent.getParam "operation" 0]
    ∧ countCreds (execute env true).2 = env.length := by
  refine ⟨?_, ?_, ?_⟩
  · unfold execute
    simp only [paramEventsNamed]
    norm_num
    exact execLoop_paramEventsNamed env true _ _ "resource" (Or.inl rfl)
      env.length 0 JValue.undef []
  · unfold execute
    simp only [paramEventsNamed]
    rw [if_neg (show ¬ ("resource" = "operation") by decide)]
    norm_num
    exact execLoop_paramEventsNamed env true _ _ "operation" (Or.inr rfl)
      env.length 0 JValue.undef []
  · unfold execute
    simp only [countCreds]
    exact execLoop_countCreds env _ _ env.length 0 JValue.undef []

/-- Parameter resolution for the C4 environments: one `trigger` item with
job `j` and token `t`. -/
def paramsC4 : String → Nat → PValue := fun name _ =>
  if name = "resource" then PValue.str "job"
  else if name = "operation" then PValue.str "trigger"
  else if name = "token" then PValue.str "t"
  else if name = "job" then PValue.str "j"
  else PValue.str ""

/-- C4 environment whose credential base URL is written with a trailing
slash. -/
def envC4Slash : ExecEnv :=
  { length := 1
    getParam := paramsC4
    getCreds := ⟨"n", "k", "http://h/"⟩
    transport := fun _ => Except.ok JValue.null
    parseXml := fun _ v => Except.ok v }

/-- C4 environment, same but with the base URL written without a trailing
slash. -/
def envC4NoSlash : ExecEnv :=
  { length := 1
    getParam := paramsC4
    getCreds := ⟨"n", "k", "http://h"⟩
    transport := fun _ => Except.ok JValue.null
    parseXml := fun _ v => Except.ok v }

/-- C4, evaluated at the failing input: the execute loop concatenates the
credential `baseUrl` verbatim (no `tolerateTrailingSlash`), so the trigger
request URI differs between the slash and no-slash spellings of the same
base URL (the former contains a double slash), while the credential test
normalizes and issues the identical URI for both spellings. -/
theorem jenkins_C4_trailing_slash_bug :
    (requestsOf (execute envC4Slash false).2).map RequestOptions.uri =
      ["http://h//job/j/build?token=t"]
    ∧ (requestsOf (execute envC4NoSlash false).2).map RequestOptions.uri =
      ["http://h/job/j/build?token=t"]
    ∧ ("http://h//job/j/build?token=t" : String) ≠ "http://h/job/j/build?token=t"
    ∧ (credTestOptions ⟨"n", "k", "http://h/"⟩).uri =
        (credTestOptions ⟨"n", "k", "http://h"⟩).uri := by
  refine ⟨rfl, rfl, by decide, by decide⟩
